import Mathlib

/-!
Shallow embedding of the `httplog` Go package (capability-preserving
`http.ResponseWriter` wrapper, access-log record formatting, attribute-pair
parsing and client-address resolution), together with theorems settling the
specification claims about it.

Conventions used throughout the embedding:
* Go strings are modelled as Lean `String`/`List Char` (all inputs of interest
  are ASCII, where Go's byte indexing and Lean's character indexing agree);
* Go `int`/`int64` values are modelled as `Int`; where two's-complement
  wrap-around of `int64` is observable it is applied explicitly (`wrap64`);
* a Go run-time panic (out-of-range slice index) is modelled by an explicit
  `panicked` result constructor;
* Go maps are modelled as insertion-ordered association lists whose insert
  updates an existing key in place, matching Go's overwrite semantics;
* loops over strings are translated to fuel-indexed structural recursion; the
  fuel is initialised to the string length, which suffices because every
  iteration consumes at least one character and one unit of fuel.
-/

namespace Httplog

/-! ## Capability-preserving wrapper (response_writer.go) -/

/-- The four optional capabilities an underlying `http.ResponseWriter` may
support: `http.CloseNotifier`, `http.Flusher`, `http.Hijacker`, `http.Pusher`. -/
structure Caps where
  closeNotifier : Bool
  flusher : Bool
  hijacker : Bool
  pusher : Bool
deriving DecidableEq, Repr

/-- The index computed by `WrapResponseWriter` from the probe of the underlying
sink: `closeNotifier = 1`, `flusher = 2`, `hijacker = 4`, `pusher = 8`,
combined with `|=`. -/
def capIndex (c : Caps) : Nat :=
  (if c.closeNotifier then 1 else 0) |||
  (if c.flusher then 2 else 0) |||
  (if c.hijacker then 4 else 0) |||
  (if c.pusher then 8 else 0)

/-- The capability set actually advertised (i.e. the optional-interface method
set actually implemented) by the wrapper type that `types[i]` constructs,
transcribed from the method declarations in response_writer.go:
index 7 is `responseWriterCloseNotifierFlusherHijacker`, which — besides
`CloseNotify`/`Flush`/`Hijack` — also receives the `Push` method declared at
line 311, and index 11 is `responseWriterCloseNotifierFlusherPusher`, which
has `CloseNotify` and `Flush` methods but no `Push` method. -/
def advertisedCaps : Nat → Caps
  | 0 => ⟨false, false, false, false⟩   -- responseWriter
  | 1 => ⟨true, false, false, false⟩    -- responseWriterCloseNotifier
  | 2 => ⟨false, true, false, false⟩    -- responseWriterFlusher
  | 3 => ⟨true, true, false, false⟩     -- responseWriterCloseNotifierFlusher
  | 4 => ⟨false, false, true, false⟩    -- responseWriterHijacker
  | 5 => ⟨true, false, true, false⟩     -- responseWriterCloseNotifierHijacker
  | 6 => ⟨false, true, true, false⟩     -- responseWriterFlusherHijacker
  | 7 => ⟨true, true, true, true⟩       -- responseWriterCloseNotifierFlusherHijacker (has Push, line 311)
  | 8 => ⟨false, false, false, true⟩    -- responseWriterPusher
  | 9 => ⟨true, false, false, true⟩     -- responseWriterCloseNotifierPusher
  | 10 => ⟨false, true, false, true⟩    -- responseWriterFlusherPusher
  | 11 => ⟨true, true, false, false⟩    -- responseWriterCloseNotifierFlusherPusher (no Push method)
  | 12 => ⟨false, false, true, true⟩    -- responseWriterHijackerPusher
  | 13 => ⟨true, false, true, true⟩     -- responseWriterCloseNotifierHijackerPusher
  | 14 => ⟨false, true, true, true⟩     -- responseWriterFlusherHijackerPusher
  | 15 => ⟨true, true, true, true⟩      -- responseWriterCloseNotifierFlusherHijackerPusher
  | _ => ⟨false, false, false, false⟩

/-- State of the base `responseWriter` struct: `status`, `size`, `hijacked`.
A freshly wrapped writer has all fields at their Go zero values. -/
structure RW where
  status : Int
  size : Int
  hijacked : Bool
deriving DecidableEq, Repr

/-- The zero-valued `responseWriter` created by `WrapResponseWriter`. -/
def initRW : RW := ⟨0, 0, false⟩

/-- Two's-complement wrap-around of Go `int64` arithmetic. -/
def wrap64 (x : Int) : Int := (x + 2 ^ 63) % 2 ^ 64 - 2 ^ 63

/-- `responseWriter.Write`: the underlying sink reports `(n, err)`; the wrapper
adds `n` to `size` (with `int64` wrap-around) regardless of `err`, and forwards
both. The second component of the argument is the underlying error (`true`
means a non-nil error); it is ignored by the size accounting. -/
def writeCall (s : RW) (res : Int × Bool) : RW :=
  { s with size := wrap64 (s.size + res.1) }

/-- Fold a whole sequence of `Write` calls (each given by the underlying
sink's reported `(n, err)`) over the wrapper state. -/
def applyWrites (s : RW) (rs : List (Int × Bool)) : RW :=
  rs.foldl writeCall s

/-- `responseWriter.WriteHeader`: records the status code (every call
overwrites the field) and forwards the call. -/
def writeHeader (s : RW) (code : Int) : RW :=
  { s with status := code }

/-- Fold a sequence of `WriteHeader` calls over the wrapper state. -/
def applyWriteHeaders (s : RW) (cs : List Int) : RW :=
  cs.foldl writeHeader s

/-- `responseWriter.Status`: 200 while the field is still zero, the recorded
field otherwise. -/
def statusFn (s : RW) : Int :=
  if s.status = 0 then 200 else s.status

/-- `responseWriter.Size`. -/
def sizeFn (s : RW) : Int := s.size

/-- `responseWriter.Hijacked`. -/
def hijackedFn (s : RW) : Bool := s.hijacked

/-- Result of the underlying sink's `Hijack` call; only whether it returned a
non-nil error is relevant here. -/
structure HijackResult where
  isErr : Bool
deriving DecidableEq, Repr

/-- The `Hijack` method shared by every hijack-capable wrapper shape: it first
sets `hijacked = true` on the wrapper state and then performs (and forwards the
result of) the underlying sink's `Hijack` call. -/
def hijackOp (s : RW) (underlying : HijackResult) : RW × HijackResult :=
  ({ s with hijacked := true }, underlying)

/-! ## Attribute-pair parser (`ParsePairs`) -/

/-- The six parse-error reasons returned by `ParsePairs`, each (except
`noEquals`, which Go builds with `errors.New`) carrying the offending
byte position reported in the error message. -/
inductive PairErr where
  | emptyName (pos : Nat)
  | noEquals
  | unexpectedSemi (pos : Nat)
  | trailingData (pos : Nat)
  | emptyValue (pos : Nat)
  | trailingSemi (pos : Nat)
deriving DecidableEq, Repr

/-- Outcome of `ParsePairs`: a successful map (`none` models Go's nil map,
returned when no pair was ever inserted), one of the six parse errors, or a
run-time panic (out-of-range string slice). `fuelOut` is an artefact of the
fuel-indexed recursion and is unreachable for the fuel `parsePairs` supplies. -/
inductive POut where
  | ok (m : Option (List (String × String)))
  | err (e : PairErr)
  | panicked
  | fuelOut
deriving DecidableEq, Repr

/-- Go map assignment on an association list: overwrite the entry with the
given key in place, or append a new entry. -/
def upsert : List (String × String) → String → String → List (String × String)
  | [], k, v => [(k, v)]
  | (k', v') :: t, k, v =>
    if k' = k then (k, v) :: t else (k', v') :: upsert t k v

/-- `pairs[k] = v` preceded by `if pairs == nil { pairs = make(...) }`. -/
def mapInsert (m : Option (List (String × String))) (k v : String) :
    Option (List (String × String)) :=
  some (upsert (m.getD []) k v)

/-- Go map read with default: `m[k]` is the stored value or `""`; reading a
nil map also yields `""`. -/
def mapGet (m : Option (List (String × String))) (k : String) : String :=
  match m with
  | none => ""
  | some l => ((l.find? (fun p => p.1 == k)).map (fun p => p.2)).getD ""

/-- Key as inserted by `ParsePairs`: lower-cased (Go `strings.ToLower`) when
the case-insensitive flag is set. -/
def keyOf (ci : Bool) (name : List Char) : String :=
  if ci then String.mk (name.map Char.toLower) else String.mk name

/-- One-pair-per-iteration translation of the `ParsePairs` loop.
`t` is the unconsumed suffix of the input, `pos` the absolute index of its
first character (used only in error messages), `acc` the map built so far.
The fuel decreases by exactly one per loop iteration; since every iteration
consumes at least three characters, fuel equal to the input length suffices. -/
def pairsAux : Nat → List Char → Nat → Bool → Option (List (String × String)) → POut
  | _, [], _, _, acc => .ok acc
  | 0, _ :: _, _, _, _ => .fuelOut
  | fuel + 1, t, pos, ci, acc =>
    -- scan the attribute name up to '=' or ';' (the `ne` loop)
    let nameCs := t.takeWhile fun c => !(c == '=') && !(c == ';')
    let rest := t.dropWhile fun c => !(c == '=') && !(c == ';')
    if nameCs = [] then .err (.emptyName pos)
    else
      match rest with
      | [] => .err .noEquals
      | c :: afterEq =>
        if c = ';' then .err (.unexpectedSemi (pos + nameCs.length))
        else
          -- the scan stopped on '=', so `c` is '=' and `afterEq` the value text
          match afterEq with
          | [] =>
            -- `vs == e`: unquoted branch degenerates to an empty value
            .err (.emptyValue (pos + nameCs.length + 1))
          | a :: body =>
            if a = '"' then
              -- quoted-string value; Go starts the end-quote scan at `vs+2`,
              -- so the first character after the opening quote always belongs
              -- to the value
              match body with
              | [] =>
                -- the opening quote is the last character: `ve = e + 1` and
                -- the slice `text[vs:ve]` is out of range — run-time panic
                .panicked
              | c0 :: rest0 =>
                let valCs := c0 :: rest0.takeWhile fun c => !(c == '"')
                let afterVal := rest0.dropWhile fun c => !(c == '"')
                match afterVal with
                | [] =>
                  -- no closing quote before end of input: the value runs to
                  -- the end and the loop terminates
                  .ok (mapInsert acc (keyOf ci nameCs) (String.mk valCs))
                | _ :: afterQ =>
                  -- `afterVal` starts at the closing quote
                  match afterQ with
                  | [] => .ok (mapInsert acc (keyOf ci nameCs) (String.mk valCs))
                  | c2 :: rest2 =>
                    if c2 = ';' then
                      match rest2 with
                      | [] => .err (.trailingSemi (pos + nameCs.length + valCs.length + 4))
                      | _ :: _ =>
                        pairsAux fuel rest2 (pos + nameCs.length + valCs.length + 4) ci
                          (mapInsert acc (keyOf ci nameCs) (String.mk valCs))
                    else .err (.trailingData (pos + nameCs.length + valCs.length + 3))
            else
              -- unquoted value: scan to the next ';' or end of input
              let valCs := (a :: body).takeWhile fun c => !(c == ';')
              let afterVal := (a :: body).dropWhile fun c => !(c == ';')
              if valCs = [] then .err (.emptyValue (pos + nameCs.length + 1))
              else
                match afterVal with
                | [] => .ok (mapInsert acc (keyOf ci nameCs) (String.mk valCs))
                | _ :: rest2 =>
                  match rest2 with
                  | [] => .err (.trailingSemi (pos + nameCs.length + valCs.length + 2))
                  | _ :: _ =>
                    pairsAux fuel rest2 (pos + nameCs.length + valCs.length + 2) ci
                      (mapInsert acc (keyOf ci nameCs) (String.mk valCs))

/-- `ParsePairs(text, ci)` from part_002: parses `name=value` pairs separated
by `;`, values optionally double-quoted. -/
def parsePairs (text : String) (ci : Bool) : POut :=
  pairsAux text.length text.toList 0 ci none

/-! ## Headers, request snapshot and client-address resolution -/

/-- A computation that either returns normally or aborts with a Go run-time
panic. -/
inductive Panicable (α : Type) where
  | ok (val : α)
  | panicked
deriving DecidableEq, Repr

/-- Map a function over the normal result of a `Panicable` computation. -/
def pmap (f : String → String) : Panicable String → Panicable String
  | .ok s => .ok (f s)
  | .panicked => .panicked

/-- `http.Header`: a map from canonical header names to value lists, modelled
as an association list. -/
abbrev Header := List (String × List String)

/-- Valid header-field token byte, as in net/textproto (digits, letters and
the bytes 33, 35-39, 42, 43, 45, 46, 94-96, 124, 126). -/
def isTokenChar (c : Char) : Bool :=
  let n := c.toNat
  (48 ≤ n && n ≤ 57) || (97 ≤ n && n ≤ 122) || (65 ≤ n && n ≤ 90) ||
  n == 33 || n == 35 || n == 36 || n == 37 || n == 38 || n == 39 ||
  n == 42 || n == 43 || n == 45 || n == 46 || n == 94 || n == 95 ||
  n == 96 || n == 124 || n == 126

/-- The canonicalisation pass of `CanonicalMIMEHeaderKey`: upper-case the
first letter and every letter following a '-', lower-case the rest. -/
def canonAux : Bool → List Char → List Char
  | _, [] => []
  | upper, c :: rest =>
    let c' :=
      if upper && c.isLower then c.toUpper
      else if !upper && c.isUpper then c.toLower
      else c
    c' :: canonAux (c' == '-') rest

/-- `http.CanonicalHeaderKey` (net/textproto `CanonicalMIMEHeaderKey`): a key
containing a non-token byte is returned unchanged, otherwise it is
canonicalised word by word. -/
def canonicalHeaderKey (s : String) : String :=
  if s.toList.all isTokenChar then String.mk (canonAux true s.toList) else s

/-- Direct Go map read `h[k]` on an `http.Header` (exact key, no
canonicalisation); a missing key yields the empty (nil) list. -/
def headerValues (h : Header) (k : String) : List String :=
  ((h.find? fun p => p.1 == k).map fun p => p.2).getD []

/-- `http.Header.Get`: canonicalise the key, return the first value or `""`. -/
def headerGet (h : Header) (k : String) : String :=
  match headerValues h (canonicalHeaderKey k) with
  | [] => ""
  | v :: _ => v

/-- `strings.Join(l, ",")`. -/
def joinComma (l : List String) : String := String.intercalate "," l

/-- The fields of `net/url.URL` this package reads. `urlString` models
`URL.String()` for URLs carrying only these fields. -/
structure URL where
  path : String
  rawQuery : String
deriving DecidableEq, Repr

/-- `url.URL.String()` for a URL with only `Path`/`RawQuery` set: the path
followed by `?` and the query when the query is non-empty. -/
def urlString (u : URL) : String :=
  u.path ++ (if u.rawQuery ≠ "" then "?" ++ u.rawQuery else "")

/-- The `Request` snapshot struct from part_002. -/
structure Request where
  method : String
  uri : String
  url : URL
  proto : String
  header : Header
  contentLength : Int
  host : String
  remoteAddr : String
  user : String
deriving DecidableEq, Repr

/-- The loop over `Header["Forwarded"]` in `Request.FirstForwardedFor`:
the first value whose (case-insensitive) pair parse yields a non-empty
`for` attribute wins; parse errors leave a nil map, whose `for` read is
empty, and are thereby skipped; a parse panic propagates. -/
def scanForwarded : List String → Panicable (Option String)
  | [] => .ok none
  | v :: vs =>
    match parsePairs v true with
    | .ok m =>
      let f := mapGet m "for"
      if f ≠ "" then .ok (some f) else scanForwarded vs
    | .err _ => scanForwarded vs
    | .panicked => .panicked
    | .fuelOut => .panicked

/-- `strings.SplitN(v, ",", 2)[0]`: the prefix of `v` before its first comma
(all of `v` if it has none). -/
def firstHop (v : String) : String :=
  String.mk (v.toList.takeWhile fun c => !(c == ','))

/-- `unicode.IsSpace` for the characters relevant here: ASCII whitespace plus
next-line (U+0085) and no-break space (U+00A0). -/
def goIsSpace (c : Char) : Bool :=
  c == ' ' || c == '\t' || c == '\n' || c.toNat == 11 || c.toNat == 12 ||
  c == '\r' || c.toNat == 133 || c.toNat == 160

/-- `strings.TrimSpace`: drop leading and trailing whitespace. -/
def trimSpaceGo (s : String) : String :=
  String.mk (((s.toList.dropWhile goIsSpace).reverse.dropWhile goIsSpace).reverse)

/-- `Request.FirstForwardedFor`: the `Forwarded` scan, then the first
`X-Forwarded-For` value's first comma-separated hop trimmed of whitespace
(Go `strings.TrimSpace`, modelled by `trimSpaceGo`), then `""`. -/
def firstForwardedFor (r : Request) : Panicable String :=
  match scanForwarded (headerValues r.header "Forwarded") with
  | .panicked => .panicked
  | .ok (some f) => .ok f
  | .ok none =>
    match headerValues r.header "X-Forwarded-For" with
    | [] => .ok ""
    | v :: _ => .ok (trimSpaceGo (firstHop v))

/-- `Request.ClientAddr`: the forwarded identifier when non-empty, the
connection's remote address otherwise. -/
def clientAddr (r : Request) : Panicable String :=
  match firstForwardedFor r with
  | .panicked => .panicked
  | .ok f => .ok (if f ≠ "" then f else r.remoteAddr)

/-! ## Record and the log-format interpreter (record.go) -/

/-- The `Response` snapshot struct from part_000. -/
structure Response where
  status : Int
  size : Int
  hijacked : Bool
  header : Header
deriving DecidableEq, Repr

/-- The `Record` struct: request and response snapshots plus timing. Time
instants are opaque values consumed only by the external time formatter;
`duration` is in nanoseconds (`time.Duration`). -/
structure Record where
  request : Request
  response : Response
  startTime : Int
  endTime : Int
  duration : Int
deriving DecidableEq, Repr

/-- External standard-library functions `Record.Format` calls, kept abstract:
`fmtFloatDiv a b` is `strconv.FormatFloat(float64(a)/float64(b), 'f', -1, 64)`,
`durSeconds d` is `strconv.FormatFloat(time.Duration(d).Seconds(), 'f', -1, 64)`,
and `timeFormat t layout` is `t.Format(layout)`. -/
structure Ext where
  fmtFloatDiv : Int → Int → String
  durSeconds : Int → String
  timeFormat : Int → String → String

/-- `strings.TrimPrefix`. -/
def trimPrefixGo (s p : String) : String :=
  if s.startsWith p then s.drop p.length else s

/-- The text (or panic) produced by a recognized single-character directive,
one `if` per `case` of the Go `switch`; `none` means the character is not a
recognized single-character directive (the parameterized `\x7b` shape is
handled separately by `fmtAux`). -/
def dirRes (r : Record) (ext : Ext) (d : Char) : Option (Panicable String) :=
  if d = '%' then some (.ok "%")
  else if d = 'B' then some (.ok (toString r.response.size))
  else if d = 'D' then some (.ok (ext.fmtFloatDiv r.duration 1000))
  else if d = 'H' then some (.ok r.request.proto)
  else if d = 'T' then some (.ok (ext.durSeconds r.duration))
  else if d = 'U' then some (.ok r.request.url.path)
  else if d = 'a' then some (clientAddr r.request)
  else if d = 'm' then some (.ok r.request.method)
  else if d = 'q' then
    some (.ok (if r.request.url.rawQuery ≠ "" then "?" ++ r.request.url.rawQuery else ""))
  else if d = 'r' then
    some (.ok (r.request.method ++ " " ++ r.request.proto ++ " " ++ urlString r.request.url))
  else if d = 's' then some (.ok (toString r.response.status))
  else if d = 't' then
    some (.ok (ext.timeFormat r.startTime "[02/Jan/2006:15:04:05 -0700]"))
  else if d = 'u' then
    some (.ok (if r.request.user ≠ "" then r.request.user else "-"))
  else if d = 'v' then some (.ok r.request.host)
  else none

/-- The text (or panic) produced by a parameterized directive `%...key...d2`,
one `if` per `case` of the inner Go `switch`; `none` means `d2` is not a
recognized parameterized directive letter. -/
def paramRes (r : Record) (ext : Ext) (key : String) (d2 : Char) :
    Option (Panicable String) :=
  if d2 = 'C' then
    match parsePairs (headerGet r.request.header "Cookie") false with
    | .ok m => some (.ok (mapGet m key))
    | .err _ => some (.ok (mapGet none key))
    | .panicked => some .panicked
    | .fuelOut => some .panicked
  else if d2 = 'T' then
    if key = "ms" then some (.ok (ext.fmtFloatDiv r.duration 1000000))
    else if key = "us" then some (.ok (ext.fmtFloatDiv r.duration 1000))
    else if key = "s" then some (.ok (ext.durSeconds r.duration))
    else some (.ok ("%\x7b" ++ key ++ "\x7dT"))
  else if d2 = 'i' then
    some (.ok (joinComma (headerValues r.request.header (canonicalHeaderKey key))))
  else if d2 = 'o' then
    some (.ok (joinComma (headerValues r.response.header (canonicalHeaderKey key))))
  else if d2 = 't' then
    if key.startsWith "end:" then
      some (.ok (ext.timeFormat r.endTime (trimPrefixGo key "end:")))
    else
      some (.ok (ext.timeFormat r.startTime (trimPrefixGo key "begin:")))
  else none

/-- The `Record.Format` scan loop. Fuel decreases by one per processed
character group; fuel equal to the template length suffices, so the
fuel-exhaustion branch is unreachable. -/
def fmtAux (r : Record) (ext : Ext) : Nat → List Char → Panicable String
  | _, [] => .ok ""
  | 0, _ :: _ => .panicked
  | fuel + 1, c :: rest =>
    if c = '%' then
      match rest with
      | [] => .ok "%"
      | d :: rest' =>
        if d = '\x7b' then
          let keyCs := rest'.takeWhile fun x => !(x == '\x7d')
          let after := rest'.dropWhile fun x => !(x == '\x7d')
          match after with
          | [] =>
            -- no matching brace before the end: emit the remainder verbatim
            .ok ("%" ++ String.mk ('\x7b' :: rest'))
          | _ :: after1 =>
            match after1 with
            | [] =>
              -- the closing brace is the last character: likewise verbatim
              .ok ("%" ++ String.mk ('\x7b' :: rest'))
            | d2 :: rest2 =>
              match paramRes r ext (String.mk keyCs) d2 with
              | some (.ok s) => pmap (fun t => s ++ t) (fmtAux r ext fuel rest2)
              | some .panicked => .panicked
              | none =>
                -- unrecognized parameterized directive: verbatim
                pmap (fun t => "%\x7b" ++ String.mk keyCs ++ "\x7d" ++ String.mk [d2] ++ t)
                  (fmtAux r ext fuel rest2)
        else
          match dirRes r ext d with
          | some (.ok s) => pmap (fun t => s ++ t) (fmtAux r ext fuel rest')
          | some .panicked => .panicked
          | none =>
            -- unrecognized single-character directive: verbatim
            pmap (fun t => "%" ++ String.mk [d] ++ t) (fmtAux r ext fuel rest')
    else pmap (fun t => String.mk [c] ++ t) (fmtAux r ext fuel rest)

/-- `Record.Format`. -/
def format (r : Record) (ext : Ext) (template : String) : Panicable String :=
  fmtAux r ext template.length template.toList

/-- `SimpleLogFormat` constant. -/
def SimpleLogFormat : String := "%a \"%r\" %s %B"

/-- `BasicLogFormat` constant. -/
def BasicLogFormat : String := "%a %v %u \"%r\" %s %T %B \"%\x7bUser-Agent\x7di\""

/-- `CommonLogFormat` constant. -/
def CommonLogFormat : String := "%a - %u %t \"%r\" %s %B"

/-- `NCSALogFormat` constant. -/
def NCSALogFormat : String :=
  "%a - %u %t \"%r\" %s %B \"%\x7bReferer\x7di\" \"%\x7bUser-Agent\x7di\""

/-- A sample external-function environment for concrete evaluations: the
time formatter renders any instant as `TS`; the float renderers are never
consulted by the templates evaluated with it. -/
def extSample : Ext := ⟨fun _ _ => "", fun _ => "", fun _ _ => "TS"⟩

/-- Sample request for concrete evaluations: `GET /x HTTP/1.1`, no headers,
no user, remote address 127.0.0.1. -/
def reqSample : Request :=
  ⟨"GET", "/x", ⟨"/x", ""⟩, "HTTP/1.1", [], 0, "example.com", "127.0.0.1", ""⟩

/-- Sample record: status 200, size 34, start of the epoch. -/
def recSample : Record :=
  ⟨reqSample, ⟨200, 34, false, []⟩, 0, 0, 0⟩

/-- The request described by claim C9's witness scenario: all three client
identification sources are present — a well-formed `Forwarded` header, an
`X-Forwarded-For` header and a remote address. -/
def reqAllSources : Request :=
  { reqSample with
    remoteAddr := "192.0.2.1",
    header := [("Forwarded", ["for=203.0.113.5"]),
               ("X-Forwarded-For", ["198.51.100.7, 203.0.113.9"])] }

/-- A request whose first `Forwarded` value is `for="` — a malformed value on
which `ParsePairs` panics. -/
def reqPanicForwarded : Request :=
  { reqSample with
    remoteAddr := "192.0.2.1",
    header := [("Forwarded", ["for=\""]),
               ("X-Forwarded-For", ["198.51.100.7"])] }

/-- A record whose request carries the Cookie header value `a="` — a value on
which `ParsePairs` panics, reached by `Format` through the `%\x7bNAME\x7dC`
cookie directive. -/
def recCookiePanic : Record :=
  { recSample with request := { reqSample with header := [("Cookie", ["a=\""])] } }

/-- The `for` attribute of the first `Forwarded` value that parses
successfully (no error) and carries a non-empty `for` — the words of the
specification's first resolution strategy, written without the code's
panic propagation. -/
def firstGoodForwarded : List String → Option String
  | [] => none
  | v :: vs =>
    match parsePairs v true with
    | .ok m => if mapGet m "for" ≠ "" then some (mapGet m "for") else firstGoodForwarded vs
    | _ => firstGoodForwarded vs

/-- Client-address resolution as the specification words it: first a good
`Forwarded` value's `for` attribute, then the first `X-Forwarded-For` value's
first comma-separated hop trimmed of whitespace (falling through to the remote
address when that hop trims to nothing), then the remote address. -/
def clientAddrSpec (r : Request) : String :=
  match firstGoodForwarded (headerValues r.header "Forwarded") with
  | some f => f
  | none =>
    match headerValues r.header "X-Forwarded-For" with
    | [] => r.remoteAddr
    | v :: _ =>
      let hop := trimSpaceGo (firstHop v)
      if hop ≠ "" then hop else r.remoteAddr

end Httplog

namespace Httplog

/-! ## Generic helper lemmas -/

theorem strMk_append (a b : List Char) :
    String.mk a ++ String.mk b = String.mk (a ++ b) := rfl

theorem parsePairs_mk (l : List Char) (ci : Bool) :
    parsePairs (String.mk l) ci = pairsAux l.length l 0 ci none := rfl

theorem format_mk (r : Record) (ext : Ext) (l : List Char) :
    format r ext (String.mk l) = fmtAux r ext l.length l := rfl

theorem takeWhile_append_pos {α} (p : α → Bool) (xs ys : List α)
    (h : ∀ a ∈ xs, p a = true) :
    (xs ++ ys).takeWhile p = xs ++ ys.takeWhile p := by
  induction xs with
  | nil => simp
  | cons x xs ih =>
    have hx : p x = true := h x (by simp)
    simp only [List.cons_append, List.takeWhile_cons_of_pos hx, List.cons.injEq, true_and]
    exact ih fun a ha => h a (by simp [ha])

theorem dropWhile_append_pos {α} (p : α → Bool) (xs ys : List α)
    (h : ∀ a ∈ xs, p a = true) :
    (xs ++ ys).dropWhile p = ys.dropWhile p := by
  induction xs with
  | nil => simp
  | cons x xs ih =>
    have hx : p x = true := h x (by simp)
    simp only [List.cons_append, List.dropWhile_cons_of_pos hx]
    exact ih fun a ha => h a (by simp [ha])

theorem takeWhile_all {α} (p : α → Bool) (xs : List α)
    (h : ∀ a ∈ xs, p a = true) : xs.takeWhile p = xs := by
  induction xs with
  | nil => simp
  | cons x xs ih =>
    have hx : p x = true := h x (by simp)
    simp only [List.takeWhile_cons_of_pos hx, List.cons.injEq, true_and]
    exact ih fun a ha => h a (by simp [ha])

theorem dropWhile_all {α} (p : α → Bool) (xs : List α)
    (h : ∀ a ∈ xs, p a = true) : xs.dropWhile p = [] := by
  induction xs with
  | nil => simp
  | cons x xs ih =>
    have hx : p x = true := h x (by simp)
    simp only [List.dropWhile_cons_of_pos hx]
    exact ih fun a ha => h a (by simp [ha])

/-! ## Symbolic single-iteration lemmas for the pair parser -/

theorem pairsAux_unquoted_mid (fuel pos : Nat) (ci : Bool)
    (acc : Option (List (String × String)))
    (name : List Char) (a : Char) (val' rest2 : List Char)
    (hn : name ≠ []) (hname : ∀ c ∈ name, c ≠ '=' ∧ c ≠ ';')
    (ha : a ≠ '"') (hval : ∀ c ∈ a :: val', c ≠ ';') (hr : rest2 ≠ []) :
    pairsAux (fuel + 1) (name ++ '=' :: a :: (val' ++ ';' :: rest2)) pos ci acc =
      pairsAux fuel rest2 (pos + name.length + (a :: val').length + 2) ci
        (mapInsert acc (keyOf ci name) (String.mk (a :: val'))) := by
  obtain ⟨n0, name1, rfl⟩ : ∃ x l, name = x :: l := by
    cases name with
    | nil => exact absurd rfl hn
    | cons x l => exact ⟨x, l, rfl⟩
  obtain ⟨r0, rest2', rfl⟩ : ∃ x l, rest2 = x :: l := by
    cases rest2 with
    | nil => exact absurd rfl hr
    | cons x l => exact ⟨x, l, rfl⟩
  have hp1 : ∀ c ∈ n0 :: name1, (!(c == '=') && !(c == ';')) = true := by
    intro c hc
    obtain ⟨h1, h2⟩ := hname c hc
    simp [h1, h2]
  have htake1 : (n0 :: (name1 ++ '=' :: a :: (val' ++ ';' :: r0 :: rest2'))).takeWhile
      (fun c => !(c == '=') && !(c == ';')) = n0 :: name1 := by
    rw [← List.cons_append, takeWhile_append_pos _ _ _ hp1]
    simp
  have hdrop1 : (n0 :: (name1 ++ '=' :: a :: (val' ++ ';' :: r0 :: rest2'))).dropWhile
      (fun c => !(c == '=') && !(c == ';')) = '=' :: a :: (val' ++ ';' :: r0 :: rest2') := by
    rw [← List.cons_append, dropWhile_append_pos _ _ _ hp1]
    simp
  have hp2 : ∀ c ∈ a :: val', (!(c == ';')) = true := by
    intro c hc
    simp [hval c hc]
  have htake2 : (a :: (val' ++ ';' :: r0 :: rest2')).takeWhile
      (fun c => !(c == ';')) = a :: val' := by
    rw [← List.cons_append, takeWhile_append_pos _ _ _ hp2]
    simp
  have hdrop2 : (a :: (val' ++ ';' :: r0 :: rest2')).dropWhile
      (fun c => !(c == ';')) = ';' :: r0 :: rest2' := by
    rw [← List.cons_append, dropWhile_append_pos _ _ _ hp2]
    simp
  simp only [List.cons_append]
  simp only [pairsAux, htake1, hdrop1, htake2, hdrop2]
  simp +decide [ha]

theorem pairsAux_unquoted_end (fuel pos : Nat) (ci : Bool)
    (acc : Option (List (String × String)))
    (name : List Char) (a : Char) (val' : List Char)
    (hn : name ≠ []) (hname : ∀ c ∈ name, c ≠ '=' ∧ c ≠ ';')
    (ha : a ≠ '"') (hval : ∀ c ∈ a :: val', c ≠ ';') :
    pairsAux (fuel + 1) (name ++ '=' :: a :: val') pos ci acc =
      .ok (mapInsert acc (keyOf ci name) (String.mk (a :: val'))) := by
  obtain ⟨n0, name1, rfl⟩ : ∃ x l, name = x :: l := by
    cases name with
    | nil => exact absurd rfl hn
    | cons x l => exact ⟨x, l, rfl⟩
  have hp1 : ∀ c ∈ n0 :: name1, (!(c == '=') && !(c == ';')) = true := by
    intro c hc
    obtain ⟨h1, h2⟩ := hname c hc
    simp [h1, h2]
  have htake1 : (n0 :: (name1 ++ '=' :: a :: val')).takeWhile
      (fun c => !(c == '=') && !(c == ';')) = n0 :: name1 := by
    rw [← List.cons_append, takeWhile_append_pos _ _ _ hp1]
    simp
  have hdrop1 : (n0 :: (name1 ++ '=' :: a :: val')).dropWhile
      (fun c => !(c == '=') && !(c == ';')) = '=' :: a :: val' := by
    rw [← List.cons_append, dropWhile_append_pos _ _ _ hp1]
    simp
  have hp2 : ∀ c ∈ a :: val', (!(c == ';')) = true := by
    intro c hc
    simp [hval c hc]
  have htake2 : (a :: val').takeWhile (fun c => !(c == ';')) = a :: val' :=
    takeWhile_all _ _ hp2
  have hdrop2 : (a :: val').dropWhile (fun c => !(c == ';')) = [] :=
    dropWhile_all _ _ hp2
  simp only [List.cons_append]
  simp only [pairsAux, htake1, hdrop1, htake2, hdrop2]
  simp +decide [ha]

theorem pairsAux_quoted_unterminated (fuel pos : Nat) (ci : Bool)
    (acc : Option (List (String × String)))
    (name : List Char) (r0 : Char) (rest0 : List Char)
    (hn : name ≠ []) (hname : ∀ c ∈ name, c ≠ '=' ∧ c ≠ ';')
    (hq : ∀ c ∈ r0 :: rest0, c ≠ '"') :
    pairsAux (fuel + 1) (name ++ '=' :: '"' :: r0 :: rest0) pos ci acc =
      .ok (mapInsert acc (keyOf ci name) (String.mk (r0 :: rest0))) := by
  obtain ⟨n0, name1, rfl⟩ : ∃ x l, name = x :: l := by
    cases name with
    | nil => exact absurd rfl hn
    | cons x l => exact ⟨x, l, rfl⟩
  have hp1 : ∀ c ∈ n0 :: name1, (!(c == '=') && !(c == ';')) = true := by
    intro c hc
    obtain ⟨h1, h2⟩ := hname c hc
    simp [h1, h2]
  have htake1 : (n0 :: (name1 ++ '=' :: '"' :: r0 :: rest0)).takeWhile
      (fun c => !(c == '=') && !(c == ';')) = n0 :: name1 := by
    rw [← List.cons_append, takeWhile_append_pos _ _ _ hp1]
    simp
  have hdrop1 : (n0 :: (name1 ++ '=' :: '"' :: r0 :: rest0)).dropWhile
      (fun c => !(c == '=') && !(c == ';')) = '=' :: '"' :: r0 :: rest0 := by
    rw [← List.cons_append, dropWhile_append_pos _ _ _ hp1]
    simp
  have hp2 : ∀ c ∈ rest0, (!(c == '"')) = true := by
    intro c hc
    simp [hq c (by simp [hc])]
  have htake2 : rest0.takeWhile (fun c => !(c == '"')) = rest0 :=
    takeWhile_all _ _ hp2
  have hdrop2 : rest0.dropWhile (fun c => !(c == '"')) = [] :=
    dropWhile_all _ _ hp2
  simp only [List.cons_append]
  simp only [pairsAux, htake1, hdrop1, htake2, hdrop2]
  simp +decide

/-! ## Client-address resolution lemmas -/

theorem scanForwarded_spec (vs : List String)
    (h : ∀ v ∈ vs, parsePairs v true ≠ .panicked ∧ parsePairs v true ≠ .fuelOut) :
    scanForwarded vs = .ok (firstGoodForwarded vs) ∧
    ∀ f, firstGoodForwarded vs = some f → f ≠ "" := by
  induction vs with
  | nil => exact ⟨rfl, by intro f hf; cases hf⟩
  | cons v vs ih =>
    obtain ⟨hp0, hf0⟩ := h v (by simp)
    have ih' := ih fun w hw => h w (by simp [hw])
    cases hp : parsePairs v true with
    | ok m =>
      by_cases hm : mapGet m "for" = ""
      · have e1 : scanForwarded (v :: vs) = scanForwarded vs := by
          simp [scanForwarded, hp, hm]
        have e2 : firstGoodForwarded (v :: vs) = firstGoodForwarded vs := by
          simp [firstGoodForwarded, hp, hm]
        rw [e1, e2]
        exact ih'
      · have e1 : scanForwarded (v :: vs) = .ok (some (mapGet m "for")) := by
          simp [scanForwarded, hp, hm]
        have e2 : firstGoodForwarded (v :: vs) = some (mapGet m "for") := by
          simp [firstGoodForwarded, hp, hm]
        rw [e1, e2]
        refine ⟨rfl, ?_⟩
        intro f hf
        injection hf with hf
        subst hf
        exact hm
    | err e =>
      have e1 : scanForwarded (v :: vs) = scanForwarded vs := by
        simp [scanForwarded, hp]
      have e2 : firstGoodForwarded (v :: vs) = firstGoodForwarded vs := by
        simp [firstGoodForwarded, hp]
      rw [e1, e2]
      exact ih'
    | panicked => exact absurd hp hp0
    | fuelOut => exact absurd hp hf0

/-! ## Wrapper theorems -/

theorem applyWriteHeaders_status (cs : List Int) : ∀ s : RW,
    (applyWriteHeaders s cs).status = cs.getLastD s.status := by
  induction cs with
  | nil => intro s; rfl
  | cons c cs ih =>
    intro s
    show (applyWriteHeaders (writeHeader s c) cs).status = _
    rw [ih, List.getLastD_cons]
    rfl

theorem wrap64_of_bounds (x : Int) (h1 : -(2 ^ 63) ≤ x) (h2 : x < 2 ^ 63) :
    wrap64 x = x := by
  unfold wrap64
  have e1 : (2 : Int) ^ 63 = 9223372036854775808 := by norm_num
  have e2 : (2 : Int) ^ 64 = 18446744073709551616 := by norm_num
  rw [e1, e2] at *
  omega

theorem applyWrites_size (rs : List (Int × Bool)) : ∀ s : RW,
    (∀ p ∈ rs, 0 ≤ p.1) → 0 ≤ s.size →
    s.size + (rs.map Prod.fst).sum < 2 ^ 63 →
    (applyWrites s rs).size = s.size + (rs.map Prod.fst).sum := by
  induction rs with
  | nil => intro s _ _ _; simp [applyWrites]
  | cons p rs ih =>
    intro s hpos hs hbound
    have hp : 0 ≤ p.1 := hpos p (by simp)
    have hrest : 0 ≤ (rs.map Prod.fst).sum := by
      apply List.sum_nonneg
      intro x hx
      obtain ⟨q, hq, rfl⟩ := List.mem_map.mp hx
      exact hpos q (by simp [hq])
    have hsum : (List.map Prod.fst (p :: rs)).sum = p.1 + (rs.map Prod.fst).sum := by
      simp
    rw [hsum] at hbound ⊢
    show (applyWrites (writeCall s p) rs).size = _
    have hw : (writeCall s p).size = s.size + p.1 := by
      show wrap64 (s.size + p.1) = s.size + p.1
      apply wrap64_of_bounds <;> omega
    rw [ih (writeCall s p) (fun q hq => hpos q (by simp [hq])) (by omega) (by rw [hw]; omega), hw]
    ring

end Httplog

namespace Httplog

/-! ## Model sanity evaluations on edge cases of the source -/

/-- Edge-case behaviour of the pair parser transcribed from hand-traces of the
Go loop: the error positions, the quoted-scan quirk that the first character
after an opening quote is never examined as a closing quote (so `a=""` parses
to the value `"`), and a quoted pair followed by a further pair. -/
theorem parsePairs_edge_cases :
    parsePairs "a=\"x\"y" false = .err (.trailingData 5) ∧
    parsePairs "a=1;" false = .err (.trailingSemi 4) ∧
    parsePairs "a=;" false = .err (.emptyValue 2) ∧
    parsePairs "a;b" false = .err (.unexpectedSemi 1) ∧
    parsePairs "ab" false = .err .noEquals ∧
    parsePairs "=x" false = .err (.emptyName 0) ∧
    parsePairs "a=\"\"" false = .ok (some [("a", "\"")]) ∧
    parsePairs "a=\"x\";" false = .err (.trailingSemi 6) ∧
    parsePairs "For=203.0.113.5" true = .ok (some [("for", "203.0.113.5")]) ∧
    parsePairs "a=\"x\";b=2" false = .ok (some [("a", "x"), ("b", "2")]) := by
  decide

/-- Sanity evaluations of header canonicalisation, one recognized directive
(`%s` on a 200 record), and client-address resolution preferring
`X-Forwarded-For` over the remote address when `Forwarded` is absent. -/
theorem model_sanity_evaluations :
    canonicalHeaderKey "user-agent" = "User-Agent" ∧
    canonicalHeaderKey "x y" = "x y" ∧
    format recSample extSample "%s" = .ok "200" ∧
    clientAddr { reqSample with
      header := [("X-Forwarded-For", [" 198.51.100.7 , 203.0.113.9"])] } =
      .ok "198.51.100.7" ∧
    clientAddr reqSample = .ok "127.0.0.1" := by
  decide

end Httplog

namespace Httplog

/-! ## Claim theorems -/

/-- Claim C1: the wrapper is claimed to advertise exactly the underlying
sink's capability subset for each of the 16 subsets. The code violates this
for two subsets, because the `Push` method intended for
`responseWriterCloseNotifierFlusherPusher` is declared on
`responseWriterCloseNotifierFlusherHijacker` instead: a sink supporting
close-notify, flush and push is wrapped in a shape that does not advertise
push, and a sink supporting close-notify, flush and hijack is wrapped in a
shape that does advertise push. -/
theorem claim_C1_capability_mismatch :
    advertisedCaps (capIndex ⟨true, true, false, true⟩) = ⟨true, true, false, false⟩ ∧
    advertisedCaps (capIndex ⟨true, true, false, true⟩) ≠ ⟨true, true, false, true⟩ ∧
    advertisedCaps (capIndex ⟨true, true, true, false⟩) = ⟨true, true, true, true⟩ ∧
    advertisedCaps (capIndex ⟨true, true, true, false⟩) ≠ ⟨true, true, true, false⟩ := by
  decide

/-- Claim C2 counterexample: `WriteHeader` overwrites the recorded status on
every call, so after `WriteHeader(301); WriteHeader(404)` the recorded status
is 404, not the first value 301 as claimed. -/
theorem claim_C2_counterexample :
    statusFn (applyWriteHeaders initRW [301, 404]) = 404 ∧
    statusFn (applyWriteHeaders initRW [301, 404]) ≠ 301 := by
  decide

/-- Claim C2 (amended): the recorded status is 200 when `WriteHeader` was
never called (or the most recent call passed code 0, which is
indistinguishable from the unset state); otherwise it equals the code of
the most recent — not the first — `WriteHeader` call. -/
theorem claim_C2_amended (cs : List Int) :
    statusFn (applyWriteHeaders initRW cs) =
      if cs.getLastD 0 = 0 then 200 else cs.getLastD 0 := by
  simp [statusFn, applyWriteHeaders_status, initRW]

/-- Claim C3: after any sequence of writes, `Size()` equals the sum of the
byte counts the underlying sink reported as accepted — regardless of the
error components — provided the running total stays within `int64` range. -/
theorem claim_C3_size_sum (rs : List (Int × Bool))
    (h1 : ∀ p ∈ rs, 0 ≤ p.1) (h2 : (rs.map Prod.fst).sum < 2 ^ 63) :
    sizeFn (applyWrites initRW rs) = (rs.map Prod.fst).sum := by
  have h := applyWrites_size rs initRW h1 le_rfl (by simpa [initRW] using h2)
  simpa [sizeFn, initRW] using h

/-- Witness for C3: two writes reporting 3 and 5 accepted bytes (the second
alongside an error) leave `Size() = 8`. -/
theorem claim_C3_witness :
    sizeFn (applyWrites initRW [((3 : Int), false), (5, true)]) = 8 := by
  have h := claim_C3_size_sum [((3 : Int), false), (5, true)] (by decide) (by norm_num)
  rw [h]; decide

/-- Claim C4: the shared `Hijack` method body sets the hijacked flag before
performing the underlying call, so `Hijacked()` reports `true` afterwards for
every possible underlying outcome, error included; the underlying result is
forwarded unchanged. -/
theorem claim_C4_hijack_flag (s : RW) (u : HijackResult) :
    hijackedFn (hijackOp s u).1 = true ∧ (hijackOp s u).2 = u :=
  ⟨rfl, rfl⟩

/-- Claim C6: on the claimed record (GET /x HTTP/1.1, status 200, size 34,
empty user), `Format(CommonLogFormat)` renders the quoted request line as
`GET HTTP/1.1 /x` — method, protocol, then URL — not `GET /x HTTP/1.1` as the
claim (and the `%r` documentation in record.go itself) states. -/
theorem claim_C6_common_log_format :
    format recSample extSample CommonLogFormat =
      .ok "127.0.0.1 - - TS \"GET HTTP/1.1 /x\" 200 34" := by
  decide

/-- Claim C7 counterexample: duplicate attribute names are not a parse
error — `ParsePairs("a=1;a=2", false)` succeeds, with the later value
overwriting the earlier. -/
theorem claim_C7_counterexample :
    parsePairs "a=1;a=2" false = .ok (some [("a", "2")]) ∧
    ∀ e : PairErr, parsePairs "a=1;a=2" false ≠ .err e := by
  refine ⟨by decide, ?_⟩
  intro e h
  rw [show parsePairs "a=1;a=2" false = .ok (some [("a", "2")]) from by decide] at h
  exact POut.noConfusion h

/-- Claim C7 (amended): on an input carrying the same attribute name twice
(with well-formed unquoted values), `ParsePairs` succeeds and the later
pair's value overwrites the earlier one — last occurrence wins. -/
theorem claim_C7_amended (ci : Bool) (name : List Char) (a1 a2 : Char)
    (v1' v2' : List Char)
    (hn : name ≠ []) (hname : ∀ c ∈ name, c ≠ '=' ∧ c ≠ ';')
    (ha1 : a1 ≠ '"') (hv1 : ∀ c ∈ a1 :: v1', c ≠ ';')
    (ha2 : a2 ≠ '"') (hv2 : ∀ c ∈ a2 :: v2', c ≠ ';') :
    parsePairs (String.mk (name ++ '=' :: a1 :: (v1' ++ ';' :: (name ++ '=' :: a2 :: v2')))) ci =
      .ok (some [(keyOf ci name, String.mk (a2 :: v2'))]) := by
  rw [parsePairs_mk]
  have hr : (name ++ '=' :: a2 :: v2') ≠ [] := by
    cases name <;> simp
  have hlen : (name ++ '=' :: a1 :: (v1' ++ ';' :: (name ++ '=' :: a2 :: v2'))).length
      = (2 * name.length + v1'.length + v2'.length + 4) + 1 := by
    simp only [List.length_append, List.length_cons]
    omega
  rw [hlen]
  rw [pairsAux_unquoted_mid (2 * name.length + v1'.length + v2'.length + 4) 0 ci none
      name a1 v1' (name ++ '=' :: a2 :: v2') hn hname ha1 hv1 hr]
  rw [show 2 * name.length + v1'.length + v2'.length + 4
      = (2 * name.length + v1'.length + v2'.length + 3) + 1 from by omega]
  rw [pairsAux_unquoted_end (2 * name.length + v1'.length + v2'.length + 3) _ ci _
      name a2 v2' hn hname ha2 hv2]
  simp [mapInsert, upsert]

/-- Witness for the amended C7 at the concrete input `a=1;a=2`. -/
theorem claim_C7_witness : parsePairs "a=1;a=2" false = .ok (some [("a", "2")]) := by
  have h := claim_C7_amended false ['a'] '1' '2' [] []
    (by decide) (by decide) (by decide) (by decide) (by decide) (by decide)
  exact h

/-- Claim C10 counterexample: when the opening quote is the last character of
the input, as in `a="`, the parser does not succeed — the end-quote scan
leaves the value's end index one past the end of the string and the slice
panics at run time. -/
theorem claim_C10_counterexample : parsePairs "a=\"" false = .panicked := by
  decide

/-- Claim C10 (amended): for an attribute value that opens with a double quote
with no closing quote before the end of the input, and with at least one
character after the opening quote, `ParsePairs` succeeds and maps the name to
every character from just after the opening quote through the end of the
input. -/
theorem claim_C10_amended (ci : Bool) (name : List Char) (r0 : Char)
    (rest0 : List Char)
    (hn : name ≠ []) (hname : ∀ c ∈ name, c ≠ '=' ∧ c ≠ ';')
    (hq : ∀ c ∈ r0 :: rest0, c ≠ '"') :
    parsePairs (String.mk (name ++ '=' :: '"' :: r0 :: rest0)) ci =
      .ok (some [(keyOf ci name, String.mk (r0 :: rest0))]) := by
  rw [parsePairs_mk]
  have hlen : (name ++ '=' :: '"' :: r0 :: rest0).length
      = (name.length + rest0.length + 2) + 1 := by
    simp only [List.length_append, List.length_cons]
    omega
  rw [hlen]
  rw [pairsAux_quoted_unterminated (name.length + rest0.length + 2) 0 ci none
      name r0 rest0 hn hname hq]
  simp [mapInsert, upsert]

/-- Witness for the amended C10 at the concrete input `a="xy`. -/
theorem claim_C10_witness : parsePairs "a=\"xy" false = .ok (some [("a", "xy")]) := by
  have h := claim_C10_amended false ['a'] 'x' ['y'] (by decide) (by decide) (by decide)
  exact h

/-- Claim C9 counterexample: a malformed `Forwarded` value is claimed to be
silently skipped, never aborting resolution — but the value `for="` makes
`ParsePairs` panic, aborting `ClientAddr` even though an `X-Forwarded-For`
fallback is available. -/
theorem claim_C9_counterexample :
    clientAddr reqPanicForwarded = .panicked ∧
    headerValues reqPanicForwarded.header "X-Forwarded-For" = ["198.51.100.7"] := by
  decide

/-- Claim C9 (amended): provided no `Forwarded` value drives the pair parser
into its out-of-range panic, `ClientAddr` resolves with strict priority: the
`for` attribute of the first `Forwarded` value that parses successfully with a
non-empty `for`; otherwise the first comma-separated hop of the first
`X-Forwarded-For` value, trimmed of whitespace (falling through to the remote
address when that hop trims to the empty string); otherwise the connection's
remote address. Parse errors on `Forwarded` values are silently skipped. -/
theorem claim_C9_amended (r : Request)
    (h : ∀ v ∈ headerValues r.header "Forwarded",
        parsePairs v true ≠ .panicked ∧ parsePairs v true ≠ .fuelOut) :
    clientAddr r = .ok (clientAddrSpec r) := by
  obtain ⟨hscan, hne⟩ := scanForwarded_spec _ h
  unfold clientAddr firstForwardedFor clientAddrSpec
  rw [hscan]
  cases hg : firstGoodForwarded (headerValues r.header "Forwarded") with
  | some f =>
    have hf := hne f hg
    simp [hf]
  | none =>
    cases hx : headerValues r.header "X-Forwarded-For" with
    | nil => simp
    | cons v rest => simp

/-- Witness for the amended C9: a request carrying a valid
`Forwarded: for=203.0.113.5`, an `X-Forwarded-For` header and a remote
address resolves to the `Forwarded` identifier. -/
theorem claim_C9_witness : clientAddr reqAllSources = .ok "203.0.113.5" := by
  have h := claim_C9_amended reqAllSources (by decide)
  rw [h]
  decide

/-- Claim C5 counterexample: `Record.Format` is not total — an input does
make it fail. The cookie directive `%\x7ba\x7dC` hands the request's Cookie
header value `a="` to `ParsePairs`, whose out-of-range slice panic propagates
out of `Format` unrecovered; likewise `%a` propagates the same panic from
client-address resolution over a `Forwarded: for="` header. -/
theorem claim_C5_counterexample :
    format recCookiePanic extSample "%\x7ba\x7dC" = .panicked ∧
    format { recSample with request := reqPanicForwarded } extSample "%a" = .panicked := by
  decide

/-- Claim C5 (amended): the format interpreter never fails on account of the
template — malformed or unknown directives degrade to literal pass-through,
over every record and every external environment: a trailing lone `%` is
emitted literally; an unrecognized single-character directive passes through
as itself; an unterminated `%\x7bkey` (no closing brace, or the closing brace
as the final character) emits the whole remainder verbatim; an unrecognized
duration unit reproduces the directive verbatim; and the three concrete
examples `%%` → `%`, `%Z` → `%Z`, `%\x7bbad` → `%\x7bbad`. (`Format` is not,
however, total over all records: as the counterexample shows, the `%a` and
`%\x7bNAME\x7dC` directives propagate the attribute-pair parser's run-time
panic on a header value whose quoted attribute value opens at the very end of
the input.) -/
theorem claim_C5_format_total (r : Record) (ext : Ext) :
    format r ext "%" = .ok "%" ∧
    (∀ c : Char,
      c ∉ ['%', 'B', 'D', 'H', 'T', 'U', 'a', 'm', 'q', 'r', 's', 't', 'u', 'v', '\x7b'] →
      format r ext (String.mk ['%', c]) = .ok (String.mk ['%', c])) ∧
    (∀ key : List Char, '\x7d' ∉ key →
      format r ext (String.mk ('%' :: '\x7b' :: key)) =
        .ok (String.mk ('%' :: '\x7b' :: key))) ∧
    (∀ key : List Char, '\x7d' ∉ key →
      format r ext (String.mk ('%' :: '\x7b' :: (key ++ ['\x7d']))) =
        .ok (String.mk ('%' :: '\x7b' :: (key ++ ['\x7d'])))) ∧
    (∀ key : List Char, '\x7d' ∉ key →
      String.mk key ≠ "ms" → String.mk key ≠ "us" → String.mk key ≠ "s" →
      format r ext (String.mk ('%' :: '\x7b' :: (key ++ ['\x7d', 'T']))) =
        .ok (String.mk ('%' :: '\x7b' :: (key ++ ['\x7d', 'T'])))) ∧
    format r ext "%%" = .ok "%" ∧
    format r ext "%Z" = .ok "%Z" ∧
    format r ext "%\x7bbad" = .ok "%\x7bbad" := by
  refine ⟨rfl, ?_, ?_, ?_, ?_, rfl, rfl, rfl⟩
  · intro c hc
    simp only [List.mem_cons, List.not_mem_nil, or_false, not_or] at hc
    obtain ⟨h1, h2, h3, h4, h5, h6, h7, h8, h9, h10, h11, h12, h13, h14, h15⟩ := hc
    have hdir : dirRes r ext c = none := by
      simp [dirRes, h1, h2, h3, h4, h5, h6, h7, h8, h9, h10, h11, h12, h13, h14]
    rw [format_mk]
    simp [fmtAux, pmap, hdir, h15]
    all_goals rfl
  · intro key hk
    have hp : ∀ c ∈ key, (!(c == '\x7d')) = true := by
      intro c hc
      have hne : c ≠ '\x7d' := fun h => hk (h ▸ hc)
      simp [hne]
    have htake : key.takeWhile (fun x => !(x == '\x7d')) = key :=
      takeWhile_all _ _ hp
    have hdrop : key.dropWhile (fun x => !(x == '\x7d')) = [] :=
      dropWhile_all _ _ hp
    rw [format_mk]
    simp [fmtAux, pmap, htake, hdrop]
    all_goals rfl
  · intro key hk
    have hp : ∀ c ∈ key, (!(c == '\x7d')) = true := by
      intro c hc
      have hne : c ≠ '\x7d' := fun h => hk (h ▸ hc)
      simp [hne]
    have htake : (key ++ ['\x7d']).takeWhile (fun x => !(x == '\x7d')) = key := by
      rw [takeWhile_append_pos _ _ _ hp]
      simp
    have hdrop : (key ++ ['\x7d']).dropWhile (fun x => !(x == '\x7d')) = ['\x7d'] := by
      rw [dropWhile_append_pos _ _ _ hp]
      simp
    rw [format_mk]
    simp [fmtAux, pmap, htake, hdrop]
    all_goals rfl
  · intro key hk hms hus hs
    have hp : ∀ c ∈ key, (!(c == '\x7d')) = true := by
      intro c hc
      have hne : c ≠ '\x7d' := fun h => hk (h ▸ hc)
      simp [hne]
    have htake : (key ++ ['\x7d', 'T']).takeWhile (fun x => !(x == '\x7d')) = key := by
      rw [takeWhile_append_pos _ _ _ hp]
      simp
    have hdrop : (key ++ ['\x7d', 'T']).dropWhile (fun x => !(x == '\x7d')) = ['\x7d', 'T'] := by
      rw [dropWhile_append_pos _ _ _ hp]
      simp
    have hpar : paramRes r ext (String.mk key) 'T' =
        some (.ok ("%\x7b" ++ String.mk key ++ "\x7dT")) := by
      simp +decide [paramRes, hms, hus, hs]
    rw [format_mk]
    simp [fmtAux, pmap, htake, hdrop, hpar]
    all_goals rfl

/-- Witness for C5 at the concrete record and template `%\x7babc\x7dT` (an
unrecognized duration unit): the directive is reproduced verbatim. -/
theorem claim_C5_witness :
    format recSample extSample "%\x7babc\x7dT" = .ok "%\x7babc\x7dT" := by
  have h := (claim_C5_format_total recSample extSample).2.2.2.2.1 ['a', 'b', 'c']
    (by decide) (by decide) (by decide) (by decide)
  exact h

/-- Claim C8: the three specified evaluations of `ParsePairs`, and the fact
that every parse error is one of the six specified reasons. -/
theorem claim_C8_parse_examples :
    parsePairs "a=1;b=2" false = .ok (some [("a", "1"), ("b", "2")]) ∧
    parsePairs "a=" false = .err (.emptyValue 2) ∧
    parsePairs "" false = .ok none ∧
    ∀ e : PairErr,
      (∃ n, e = .emptyName n) ∨ e = .noEquals ∨ (∃ n, e = .unexpectedSemi n) ∨
      (∃ n, e = .trailingData n) ∨ (∃ n, e = .emptyValue n) ∨
      (∃ n, e = .trailingSemi n) := by
  refine ⟨by decide, by decide, by decide, ?_⟩
  intro e
  cases e <;> simp

end Httplog
